import Mathlib

/-!
Verification of the sqlbk/postgres SQL storage backend core.

This file shallowly embeds the data model and the operations of the
backend (`lib/backend/sqlbk/background.go`, `lib/backend/postgres/driver.go`
and the sqlbk/postgres configuration files) and proves the stated
properties about them.

Modelling conventions:
* byte strings (keys, values) are `List Nat`;
* `int64` values (item IDs, event IDs) and `time.Duration`/timestamps are
  `Int` (no overflow-relevant arithmetic occurs in the embedded code);
* a SQL transaction is a record carrying the database state it would
  commit, the stored transaction error (the Active/Failed state machine of
  the `Tx` contract), and a schedule of injected engine faults: each
  primitive database call consumes one schedule slot while the transaction
  is active, and a `some e` slot makes that call fail with `e`, placing
  the transaction in the failed state (subsequent calls are no-ops that
  return zero values, as the `Tx` contract requires);
* committing returns the stored error, or consumes one more slot; the
  database visible after the cycle is the transaction's state only when
  commit succeeded (transaction atomicity).
-/

set_option maxRecDepth 8000

namespace Sqlbk

/-- Error classes of the `trace` error taxonomy as used by the backend,
plus `canceled` standing for `context.Canceled`. -/
inductive TErr
  | notFound
  | alreadyExists
  | retry
  | generic
  | canceled
  | badParameter
  | connectionProblem
  deriving DecidableEq

/-- `backend.Item`: a stored key/value row. -/
structure Item where
  key : List Nat
  value : List Nat
  id : Int
  expires : Option Int
  deriving DecidableEq

/-- `backend.Lease`: the binding of a key to its currently active item. -/
structure Lease where
  key : List Nat
  id : Int
  expires : Option Int
  deriving DecidableEq

/-- `types.OpType` restricted to the two mutation kinds produced here. -/
inductive OpType
  | put
  | delete
  deriving DecidableEq

/-- `backend.Event`: an append-only event-log row, holding the eventid,
the mutation kind and a snapshot of the affected item. -/
structure Event where
  eventID : Int
  type : OpType
  item : Item
  deriving DecidableEq

/-- The relational state behind one backend database: the item, lease and
event tables, plus the engine's strictly increasing eventid allocator. -/
structure DBState where
  items : List Item
  leases : List Lease
  events : List Event
  counter : Int
  deriving DecidableEq

/-- `GetExpiredLeases` predicate: the lease's expires field is set and is
less than or equal to the current time (interface contract of
`Tx.GetExpiredLeases`). -/
def Lease.expiresLE (l : Lease) (now : Int) : Bool :=
  match l.expires with
  | none => false
  | some t => t ≤ now

/-- `DeleteExpiredLeases` predicate: the lease's expires column is not
null and is less than the current time (interface contract of
`Tx.DeleteExpiredLeases`). -/
def Lease.expiresLT (l : Lease) (now : Int) : Bool :=
  match l.expires with
  | none => false
  | some t => t < now

/-- `SELECT MAX(eventid)` with 0 for an empty event table
(`Tx.GetLastEventID` contract). -/
def lastEventIDOf (db : DBState) : Int :=
  (db.events.map (fun e => e.eventID)).foldl max 0

/-- A SQL transaction: the database state it would commit, the current
time, the stored transaction error, and the remaining injected-fault
schedule (one slot per primitive database call). -/
structure Tx where
  db : DBState
  now : Int
  err : Option TErr
  faults : List (Option TErr)
  deriving DecidableEq

/-- Consume one fault-schedule slot: while the transaction is active, a
`some e` slot places it in the failed state. A failed transaction is
left untouched (its methods are no-ops per the `Tx` contract). -/
def Tx.step (t : Tx) : Tx :=
  if t.err.isSome then t
  else
    match t.faults with
    | [] => t
    | f :: fs => { t with err := f, faults := fs }

/-- `DB.Begin` / `DB.ReadOnly`: open a transaction on a database state.
Opening itself may fail (the begin error is stored in the transaction,
as `pgDB.begin` stores `convertError(err)`). -/
def Tx.begin (db : DBState) (now : Int) (faults : List (Option TErr)) : Tx :=
  match faults with
  | [] => { db := db, now := now, err := none, faults := [] }
  | f :: fs => { db := db, now := now, err := f, faults := fs }

/-- `Tx.GetExpiredLeases`: all leases whose expires field is ≤ now.
Returns the empty slice on a failed transaction. -/
def Tx.getExpiredLeases (t : Tx) : Tx × List Lease :=
  let t' := t.step
  if t'.err.isSome then (t', [])
  else (t', t'.db.leases.filter (fun l => l.expiresLE t'.now))

/-- `Tx.InsertEvent`: append an event with the next engine-assigned
eventid. No-op on a failed transaction. -/
def Tx.insertEvent (t : Tx) (ty : OpType) (item : Item) : Tx :=
  let t' := t.step
  if t'.err.isSome then t'
  else
    { t' with
      db := { t'.db with
              events := t'.db.events ++ [⟨t'.db.counter, ty, item⟩],
              counter := t'.db.counter + 1 } }

/-- `Tx.GetEvents`: an ordered set of at most `limit` events whose
eventid is greater than `fromID`, together with the eventid of the most
recent event included; `fromID` is returned when there are no events or
a transaction error occurs (interface contract of `Tx.GetEvents`). -/
def Tx.getEvents (t : Tx) (fromID : Int) (limit : Nat) : Tx × Int × List Event :=
  let t' := t.step
  if t'.err.isSome then (t', fromID, [])
  else
    let evs := (t'.db.events.filter (fun e => fromID < e.eventID)).take limit
    match evs.getLast? with
    | none => (t', fromID, [])
    | some e => (t', e.eventID, evs)

/-- `Tx.GetLastEventID`: most recent eventid, zero for an empty table.
Returns zero on a failed transaction. -/
def Tx.getLastEventID (t : Tx) : Tx × Int :=
  let t' := t.step
  if t'.err.isSome then (t', 0)
  else (t', lastEventIDOf t'.db)

/-- `Tx.DeleteExpiredLeases`: remove leases whose expires column is not
null and is less than the current time. -/
def Tx.deleteExpiredLeases (t : Tx) : Tx :=
  let t' := t.step
  if t'.err.isSome then t'
  else { t' with db := { t'.db with leases := t'.db.leases.filter (fun l => !l.expiresLT t'.now) } }

/-- `Tx.DeleteEvents`: remove events inclusively before an event ID. -/
def Tx.deleteEvents (t : Tx) (beforeEventID : Int) : Tx :=
  let t' := t.step
  if t'.err.isSome then t'
  else { t' with db := { t'.db with events := t'.db.events.filter (fun e => beforeEventID < e.eventID) } }

/-- Whether some lease in `ls` currently binds item `it` (same key and
item ID). -/
def boundByLease (ls : List Lease) (it : Item) : Bool :=
  ls.any (fun l => decide (l.key = it.key) && decide (l.id = it.id))

/-- Whether some event in `es` with eventid greater than `beforeEventID`
references item `it` (its snapshot carries the item's key and ID): an
event that has yet to be emitted. -/
def referencedByUnemitted (es : List Event) (beforeEventID : Int) (it : Item) : Bool :=
  es.any (fun e => decide (beforeEventID < e.eventID)
    && decide (e.item.key = it.key) && decide (e.item.id = it.id))

/-- `Tx.DeleteItems`. Modelled from the spec: the SQL statement itself is
not under src/, only its interface contract — "DeleteItems inclusively
before an event ID. Items still referencing valid leases or events that
have yet to be emitted are excluded", and the spec's "deletes Items at or
before the watermark that are neither bound by a live Lease nor
referenced by a still-undelivered Event". -/
def Tx.deleteItems (t : Tx) (beforeEventID : Int) : Tx :=
  let t' := t.step
  if t'.err.isSome then t'
  else
    { t' with
      db := { t'.db with
              items := t'.db.items.filter (fun it =>
                !(decide (it.id ≤ beforeEventID)
                  && !boundByLease t'.db.leases it
                  && !referencedByUnemitted t'.db.events beforeEventID it)) } }

/-- `Tx.Commit`: on a failed transaction, return the stored error;
otherwise attempt the commit, which consumes one fault slot and fails
the transaction when that slot holds an error. -/
def Tx.commit (t : Tx) : Tx × Option TErr :=
  match t.err with
  | some e => (t, some e)
  | none =>
    match t.faults with
    | [] => (t, none)
    | f :: fs => ({ t with err := f, faults := fs }, f)

/-- `sqlbk.Config` (flattening the nested TLS struct into the three path
fields). `logSet`/`clockSet` model whether the `Log`/`Clock` pointers are
non-nil. Durations are nanosecond counts, as in Go. -/
structure Config where
  Addr : String := ""
  Database : String := ""
  CAFile : String := ""
  ClientKeyFile : String := ""
  ClientCertFile : String := ""
  BufferSize : Int := 0
  PollStreamPeriod : Int := 0
  PurgePeriod : Int := 0
  RetryDelayPeriod : Int := 0
  ConnMaxIdleTime : Int := 0
  ConnMaxLifetime : Int := 0
  MaxIdleConns : Int := 0
  MaxOpenConns : Int := 0
  logSet : Bool := false
  clockSet : Bool := false
  deriving DecidableEq

/-- `Backend.poll` result: the returned watermark, the events emitted to
the notification buffer, the database state visible after the cycle, and
the returned error. -/
structure PollResult where
  last : Int
  emitted : List Event
  db : DBState
  err : Option TErr
  deriving DecidableEq

/-- The loop body of `Backend.poll`: for each expired lease, copy the
lease's ID and key into the (reused) item variable and insert a Delete
event, returning early with the transaction error if the insert failed.
`item` starts as Go's zero `backend.Item` and is threaded through,
exactly as the single `var item backend.Item` is in the source. -/
def insertDeleteEvents (t : Tx) (item : Item) : List Lease → Tx × Item × Option TErr
  | [] => (t, item, none)
  | l :: ls =>
    let item' := { item with id := l.id, key := l.key }
    let t' := t.insertEvent OpType.delete item'
    match t'.err with
    | some e => (t', item', some e)
    | none => insertDeleteEvents t' item' ls

/-- `Backend.poll`: poll for expired leases and create delete events,
then fetch events with eventid greater than `fromEventID` (limited to
`BufferSize/2`), commit, and on success emit the fetched events and
return the last fetched eventid. On any failure the input watermark is
returned, nothing is emitted and the database is unchanged (the
transaction never committed). -/
def Backend.poll (cfg : Config) (db0 : DBState) (now : Int)
    (faults : List (Option TErr)) (fromEventID : Int) : PollResult :=
  let t0 := Tx.begin db0 now faults
  let p1 := t0.getExpiredLeases
  let p2 := insertDeleteEvents p1.1 ⟨[], [], 0, none⟩ p1.2
  match p2.2.2 with
  | some e => ⟨fromEventID, [], db0, some e⟩
  | none =>
    let p3 := p2.1.getEvents fromEventID (cfg.BufferSize / 2).toNat
    let p4 := p3.1.commit
    match p4.2 with
    | some e => ⟨fromEventID, [], db0, some e⟩
    | none => ⟨p3.2.1, p3.2.2, p4.1.db, none⟩

/-- `Backend.purge`: remove expired leases, events at or before the
watermark, and items at or before the watermark that are neither bound
by a lease nor referenced by a not-yet-emitted event; commit. Returns
the commit error and the database state visible after the cycle. -/
def Backend.purge (db0 : DBState) (now : Int)
    (faults : List (Option TErr)) (beforeEventID : Int) : Option TErr × DBState :=
  let t0 := Tx.begin db0 now faults
  let t1 := t0.deleteExpiredLeases
  let t2 := t1.deleteEvents beforeEventID
  let t3 := t2.deleteItems beforeEventID
  let p := t3.commit
  match p.2 with
  | some e => (some e, db0)
  | none => (none, p.1.db)

/-- Log severity of the worker's error log calls. -/
inductive LogLevel
  | warn
  | error
  deriving DecidableEq

/-- Severity chosen by `Backend.run`: `errors.Is(err, context.Canceled)`
is logged with `Log.Warn`, anything else with `Log.Error`. -/
def TErr.level : TErr → LogLevel
  | TErr.canceled => LogLevel.warn
  | _ => LogLevel.error

/-- One iteration's input to the worker loop: a poll tick or purge tick
(each carrying the current time and that cycle's injected-fault
schedule), or the close context becoming done. -/
inductive Tick
  | pollT (now : Int) (faults : List (Option TErr))
  | purgeT (now : Int) (faults : List (Option TErr))
  | closeT
  deriving DecidableEq

/-- Whether a tick is the close signal. -/
def Tick.isClose : Tick → Bool
  | Tick.closeT => true
  | _ => false

/-- The worker's state: the event-id watermark, the database, the
`loggedError` flag, the log written so far, and (as an observation) all
events emitted to the notification buffer so far. -/
structure RunState where
  eventID : Int
  db : DBState
  loggedError : Bool
  log : List (LogLevel × TErr)
  emitted : List Event
  deriving DecidableEq

/-- The error-handling tail of each `Backend.run` iteration: a success
resets `loggedError`; a failure is logged (at the severity chosen by
`TErr.level`) only when `loggedError` is not yet set. -/
def RunState.handle (s : RunState) : Option TErr → RunState
  | none => { s with loggedError := false }
  | some e =>
    if s.loggedError then s
    else { s with log := s.log ++ [(e.level, e)], loggedError := true }

/-- `Backend.run`: the worker loop over a finite schedule of ticks.
Besides the final state it returns, as observations, the error outcome
of every cycle that was executed and the ticks remaining unprocessed
when the loop returned (the loop returns only on the close tick). -/
def Backend.runLoop (cfg : Config) : RunState → List Tick →
    RunState × List (Option TErr) × List Tick
  | s, [] => (s, [], [])
  | s, Tick.closeT :: rest => (s, [], rest)
  | s, Tick.pollT now faults :: rest =>
    let r := Backend.poll cfg s.db now faults s.eventID
    let s' := { s with eventID := r.last, db := r.db, emitted := s.emitted ++ r.emitted }
    let q := Backend.runLoop cfg (s'.handle r.err) rest
    (q.1, r.err :: q.2.1, q.2.2)
  | s, Tick.purgeT now faults :: rest =>
    let p := Backend.purge s.db now faults s.eventID
    let s' := { s with db := p.2 }
    let q := Backend.runLoop cfg (s'.handle p.1) rest
    (q.1, p.1 :: q.2.1, q.2.2)

/-- `Backend.start` result: the watermark seeding the worker, whether
`buf.SetInit` was signalled, whether the worker goroutine was launched,
and the returned error. -/
structure StartResult where
  watermark : Int
  setInit : Bool
  started : Bool
  err : Option TErr
  deriving DecidableEq

/-- `Backend.start`: read the last event ID through a read-only
transaction; if its commit fails, return a ConnectionProblem error
without signalling the buffer or launching the worker; otherwise signal
`SetInit` and launch `run` seeded with the value read. -/
def Backend.start (db : DBState) (now : Int) (faults : List (Option TErr)) : StartResult :=
  let t0 := Tx.begin db now faults
  let p1 := t0.getLastEventID
  let p2 := p1.1.commit
  match p2.2 with
  | some _ => ⟨0, false, false, some TErr.connectionProblem⟩
  | none => ⟨p1.2, true, true, none⟩

/-! ### Configuration validation (`sqlbk.Config.CheckAndSetDefaults` and
the postgres wrapper). -/

/-- One millisecond in nanoseconds (Go `time.Millisecond`). -/
def millisecond : Int := 1000000

/-- One second in nanoseconds (Go `time.Second`). -/
def second : Int := 1000000000

/-- Default frequency for purging database records (10s). -/
def DefaultPurgePeriod : Int := 10 * second

/-- Default name of the backend database. -/
def DefaultDatabase : String := "teleport"

/-- Default delay before a transaction retries on serialization failure
(250ms). -/
def DefaultRetryDelayPeriod : Int := 250 * millisecond

/-- Default max idle time: connections are not closed due to idle time. -/
def DefaultConnMaxIdleTime : Int := 0

/-- Default max lifetime: connections are not closed due to age. -/
def DefaultConnMaxLifetime : Int := 0

/-- Default number of idle connections retained in the pool. -/
def DefaultMaxIdleConns : Int := 2

/-- Default maximum number of open database connections. -/
def DefaultMaxOpenConns : Int := 50

/-- Modelled from the spec: `backend.DefaultBufferCapacity` lives outside
src/; the spec fixes only that a default notification-buffer capacity is
provided, not its value, so any positive constant is faithful. -/
def DefaultBufferCapacity : Int := 1024

/-- Modelled from the spec: `backend.DefaultPollStreamPeriod` lives
outside src/; the spec gives "poll period (default 1s)". -/
def DefaultPollStreamPeriod : Int := 1 * second

/-- `sqlbk.Config.CheckAndSetDefaults`: validate required fields in the
source's order and fill unset fields with their defaults. -/
def Config.CheckAndSetDefaults (c : Config) : Except TErr Config :=
  if c.logSet = false then Except.error TErr.badParameter
  else if c.clockSet = false then Except.error TErr.badParameter
  else if c.Addr = "" then Except.error TErr.badParameter
  else if c.CAFile = "" then Except.error TErr.badParameter
  else if c.ClientKeyFile = "" then Except.error TErr.badParameter
  else if c.ClientCertFile = "" then Except.error TErr.badParameter
  else Except.ok
    { c with
      Database := if c.Database = "" then DefaultDatabase else c.Database,
      BufferSize := if c.BufferSize ≤ 0 then DefaultBufferCapacity else c.BufferSize,
      PollStreamPeriod := if c.PollStreamPeriod ≤ 0 then DefaultPollStreamPeriod else c.PollStreamPeriod,
      PurgePeriod := if c.PurgePeriod ≤ 0 then DefaultPurgePeriod else c.PurgePeriod,
      RetryDelayPeriod := if c.RetryDelayPeriod = 0 then DefaultRetryDelayPeriod else c.RetryDelayPeriod,
      MaxOpenConns := if c.MaxOpenConns = 0 then DefaultMaxOpenConns else c.MaxOpenConns,
      ConnMaxIdleTime := if c.ConnMaxIdleTime = 0 then DefaultConnMaxIdleTime else c.ConnMaxIdleTime,
      ConnMaxLifetime := if c.ConnMaxLifetime = 0 then DefaultConnMaxLifetime else c.ConnMaxLifetime,
      MaxIdleConns := if c.MaxIdleConns = 0 then DefaultMaxIdleConns else c.MaxIdleConns }

/-- The postgres `Config.CheckAndSetDefaults`: default the Log and Clock
fields when unset, then run the embedded sqlbk validation. (In the
Boolean is-set abstraction, conditionally setting an unset flag is the
same function as setting it unconditionally, so the two nil checks are
embedded as one record update.) -/
def pgCheckAndSetDefaults (c : Config) : Except TErr Config :=
  Config.CheckAndSetDefaults { c with logSet := true, clockSet := true }

/-! ### Error translation (`postgres.convertError`) and the `ErrRetry`
sentinel.

Go error values are pointers to heap-allocated error structs; to speak
about identity versus value we model the heap explicitly: a heap is the
list of allocated trace-error values, an address is an index into it,
and a Go `error` interface value is `Option addr` (`none` is Go `nil`).
Package initialization of `var ErrRetry error = &trace.RetryError{Message:
"retry"}` allocates one cell, so the package heap starts as `initHeap`
and the package-level sentinel is the address `errRetryAddr`. -/

/-- A native engine failure as seen by `convertError`: `sql.ErrNoRows`,
a `*pgconn.PgError` with its code, or any other error. -/
inductive PgNative
  | noRows (msg : String)
  | pgError (code : String) (msg : String)
  | other (msg : String)
  deriving DecidableEq

/-- A heap-allocated trace-error value. -/
inductive TraceVal
  | notFound (msg : String)
  | alreadyExists (msg : String)
  | retryError (msg : String)
  | wrapped (msg : String)
  deriving DecidableEq

/-- The error heap: allocated trace-error cells, addressed by index. -/
def Heap : Type := List TraceVal

/-- Allocate a fresh error cell, returning the new heap and the fresh
address. -/
def Heap.alloc (h : Heap) (v : TraceVal) : Heap × Nat :=
  (List.append h [v], List.length h)

/-- Read the value stored at an address. -/
def Heap.read (h : Heap) (a : Nat) : Option TraceVal :=
  List.get? h a

/-- Address of the package-level `ErrRetry` sentinel, allocated once at
package initialization. -/
def errRetryAddr : Nat := 0

/-- The package heap after initialization: exactly the `ErrRetry`
allocation `&trace.RetryError{Message: "retry"}`. -/
def initHeap : Heap := [TraceVal.retryError "retry"]

/-- Postgres error code for a unique-constraint violation. -/
def errCodeUniqueConstraint : String := "23505"

/-- Postgres error code for a serialization failure. -/
def errCodeNotSerializable : String := "40001"

/-- `postgres.convertError`: nil stays nil; `sql.ErrNoRows` becomes a
fresh NotFound; a `*pgconn.PgError` with code 23505 becomes a fresh
AlreadyExists, with code 40001 the package-level `ErrRetry` sentinel
itself (no allocation — the same shared value is returned by reference);
everything else is wrapped. -/
def convertError (h : Heap) : Option PgNative → Heap × Option Nat
  | none => (h, none)
  | some (PgNative.noRows msg) =>
    let p := h.alloc (TraceVal.notFound msg)
    (p.1, some p.2)
  | some (PgNative.pgError code msg) =>
    if code = errCodeUniqueConstraint then
      let p := h.alloc (TraceVal.alreadyExists "already exists")
      (p.1, some p.2)
    else if code = errCodeNotSerializable then (h, some errRetryAddr)
    else
      let p := h.alloc (TraceVal.wrapped msg)
      (p.1, some p.2)
  | some (PgNative.other msg) =>
    let p := h.alloc (TraceVal.wrapped msg)
    (p.1, some p.2)

/-- The four-class error taxonomy (plus the nil case). -/
inductive ErrClass
  | nilErr
  | notFoundClass
  | alreadyExistsClass
  | retryableClass
  | genericClass
  deriving DecidableEq

/-- Classify a returned Go error value by the trace value it points to. -/
def classify (h : Heap) : Option Nat → ErrClass
  | none => ErrClass.nilErr
  | some a =>
    match h.read a with
    | some (TraceVal.notFound _) => ErrClass.notFoundClass
    | some (TraceVal.alreadyExists _) => ErrClass.alreadyExistsClass
    | some (TraceVal.retryError _) => ErrClass.retryableClass
    | some (TraceVal.wrapped _) => ErrClass.genericClass
    | none => ErrClass.genericClass

/-- The mapping the specification prescribes for the error translation,
written from the spec's words (for comparison with `convertError`): nil
stays nil, no-rows maps to NotFound, engine code 23505 to AlreadyExists,
engine code 40001 to Retryable, everything else to Generic. -/
def specErrClass : Option PgNative → ErrClass
  | none => ErrClass.nilErr
  | some (PgNative.noRows _) => ErrClass.notFoundClass
  | some (PgNative.pgError code _) =>
    if code = "23505" then ErrClass.alreadyExistsClass
    else if code = "40001" then ErrClass.retryableClass
    else ErrClass.genericClass
  | some (PgNative.other _) => ErrClass.genericClass

/-! ### Lease write operations (`Tx.UpsertLease` / `Tx.UpdateLease`).

The SQL statements implementing these two operations are not under src/;
only the `Tx` interface declaration is (and its two doc comments are
visibly attached to the wrong methods: the text naming `UpsertLease`
sits on `UpdateLease` and vice versa). They are therefore modelled from
the spec. -/

/-- Modelled from the spec: `Tx.UpsertLease` — "Creates or replaces the
Lease for item.Key to point at item.ID/Expires" (SQL insert-or-update on
the lease's key). -/
def UpsertLease (item : Item) (db : DBState) : DBState :=
  if db.leases.any (fun l => decide (l.key = item.key)) then
    { db with
      leases := db.leases.map (fun l =>
        if l.key = item.key then ⟨item.key, item.id, item.expires⟩ else l) }
  else { db with leases := db.leases ++ [⟨item.key, item.id, item.expires⟩] }

/-- Modelled from the spec: `Tx.UpdateLease` — "Like Upsert but fails
with NotFound if no Lease exists for the key" (SQL update whose
rows-affected count of zero sets the NotFound error state). -/
def UpdateLease (item : Item) (db : DBState) : Except TErr DBState :=
  if db.leases.any (fun l => decide (l.key = item.key)) then
    Except.ok
      { db with
        leases := db.leases.map (fun l =>
          if l.key = item.key then ⟨item.key, item.id, item.expires⟩ else l) }
  else Except.error TErr.notFound

/-! ### Specification-side helper definitions used in theorem
statements. -/

/-- The expired leases a poll cycle sees in database `db` at time
`now`. -/
def expiredLeasesOf (db : DBState) (now : Int) : List Lease :=
  db.leases.filter (fun l => l.expiresLE now)

/-- The Delete events the poll cycle synthesizes for a list of expired
leases, starting from eventid `n`: one event per lease, consecutive
eventids, each carrying only the lease's key and item ID in its item
snapshot (value and expires stay at their zero values). -/
def buildDeleteEvents : Int → List Lease → List Event
  | _, [] => []
  | n, l :: ls => ⟨n, OpType.delete, ⟨l.key, [], l.id, none⟩⟩ :: buildDeleteEvents (n + 1) ls

/-- The poll cycle the specification describes, written from the spec's
words (for comparison with `Backend.poll`): within one transaction,
insert one Delete event per currently expired lease — in order, with
consecutive engine-assigned eventids, each carrying only the lease's
key and item ID — then fetch events with eventid above the watermark,
at most `BufferSize/2` of them; on commit, emit exactly those events
and advance the watermark to the last one's eventid (watermark
unchanged when none was fetched). -/
def pollSpec (cfg : Config) (db : DBState) (now fromEventID : Int) : PollResult :=
  let dbAfter : DBState :=
    { db with
      events := db.events ++ buildDeleteEvents db.counter (expiredLeasesOf db now),
      counter := db.counter + (expiredLeasesOf db now).length }
  let evs := (dbAfter.events.filter (fun e => fromEventID < e.eventID)).take
    (cfg.BufferSize / 2).toNat
  match evs.getLast? with
  | none => ⟨fromEventID, evs, dbAfter, none⟩
  | some e => ⟨e.eventID, evs, dbAfter, none⟩

/-- Well-formedness of a database state: the event table is sorted in
strictly ascending eventid order and every eventid is below the engine's
allocator counter. Every state the engine produces satisfies this since
eventids are assigned from the strictly increasing counter. -/
def DBWF (db : DBState) : Prop :=
  List.Pairwise (fun a b => a.eventID < b.eventID) db.events ∧
    ∀ e ∈ db.events, e.eventID < db.counter

/-- The database state a fault-free purge cycle commits: expired leases
removed, then events at or below the watermark removed, then items at
or below the watermark removed when bound by no remaining lease and
referenced by no remaining (not-yet-emitted) event. -/
def purgedDB (db : DBState) (now beforeEventID : Int) : DBState :=
  let leases' := db.leases.filter (fun l => !l.expiresLT now)
  let events' := db.events.filter (fun e => beforeEventID < e.eventID)
  { db with
    leases := leases',
    events := events',
    items := db.items.filter (fun it =>
      !(decide (it.id ≤ beforeEventID)
        && !boundByLease leases' it
        && !referencedByUnemitted events' beforeEventID it)) }

/-- The first error of each consecutive-failure streak in a sequence of
cycle outcomes, given the initial `loggedError` flag: a success resets
the flag, and a failure is kept only when the flag is clear. This is the
spec's "logged at most once per consecutive-failure streak". -/
def streakHeads : Bool → List (Option TErr) → List TErr
  | _, [] => []
  | _, none :: rest => streakHeads false rest
  | true, some _ :: rest => streakHeads true rest
  | false, some e :: rest => e :: streakHeads true rest

/-- The ticks remaining after the first close tick (empty when there is
no close tick: the loop never returns). -/
def afterFirstClose : List Tick → List Tick
  | [] => []
  | Tick.closeT :: rest => rest
  | _ :: rest => afterFirstClose rest

/-! ## Theorems -/

/-- C5: the error translation function `convertError` maps every native
engine failure into exactly four classes: a nil error stays nil, a
no-rows result maps to NotFound, a unique-constraint violation (engine
code 23505) maps to AlreadyExists, a serialization failure (engine code
40001) maps to the Retryable classification, and every other error is
wrapped and surfaced as a Generic error. Stated as agreement with
`specErrClass`, the mapping written from the spec's words, over every
native error. -/
theorem convertError_four_classes (e : Option PgNative) :
    classify (convertError initHeap e).1 (convertError initHeap e).2 = specErrClass e := by
  match e with
  | none => rfl
  | some (PgNative.noRows msg) => rfl
  | some (PgNative.other msg) => rfl
  | some (PgNative.pgError code msg) =>
    by_cases h1 : code = "23505"
    · subst h1; rfl
    · by_cases h2 : code = "40001"
      · subst h2; rfl
      · simp only [convertError, specErrClass, errCodeUniqueConstraint, errCodeNotSerializable,
          if_neg h1, if_neg h2]
        rfl

/-- C8 counterexample: the Retryable condition is NOT an enumerated
classification compared by value. At the concrete input "serialization
failure with code 40001", `convertError` returns exactly the
package-level sentinel address `errRetryAddr` (the `var ErrRetry`
allocation) without allocating anything, while a freshly allocated
`RetryError` holding the very same value sits at a different address:
the Retryable classification distinguishes two value-equal errors by
their address, i.e. it is pointer identity with a shared package-level
sentinel. -/
theorem errRetry_identity_counterexample :
    (convertError initHeap (some (PgNative.pgError "40001" "conflict"))).2 = some errRetryAddr ∧
    (convertError initHeap (some (PgNative.pgError "40001" "conflict"))).1 = initHeap ∧
    (initHeap.alloc (TraceVal.retryError "retry")).2 ≠ errRetryAddr ∧
    Heap.read (initHeap.alloc (TraceVal.retryError "retry")).1
        (initHeap.alloc (TraceVal.retryError "retry")).2 =
      Heap.read (initHeap.alloc (TraceVal.retryError "retry")).1 errRetryAddr := by
  refine ⟨rfl, rfl, by decide, rfl⟩

/-- C8 amended: the Retryable condition is represented by the single
shared package-level sentinel `ErrRetry` (allocated once at package
initialization); for every serialization failure (code 40001, any
message, any heap) `convertError` returns that very sentinel by
reference — the same address, with no fresh allocation — so Retryable
classification is identity with the package-level sentinel. -/
theorem errRetry_shared_sentinel (h : Heap) (msg : String) :
    (convertError h (some (PgNative.pgError errCodeNotSerializable msg))).2 = some errRetryAddr ∧
    (convertError h (some (PgNative.pgError errCodeNotSerializable msg))).1 = h := by
  have hne : ¬(errCodeNotSerializable = errCodeUniqueConstraint) := by decide
  rw [convertError]
  rw [if_neg hne, if_pos rfl]
  exact ⟨rfl, rfl⟩

/-- C9: configuration validation, run once at construction through the
postgres wrapper, fails with a BadParameter error if and only if the
network address or one of the three TLS paths (CA file, client key
file, client certificate file) is empty — Log and Clock are defaulted
by the wrapper before the embedded check — and otherwise fills every
unset field with its documented default: database "teleport", purge
period 10s, retry delay 250ms, max idle time unbounded (0), max
lifetime unbounded (0), max idle connections 2, max open
connections 50. -/
theorem config_check_and_set_defaults (c : Config) :
    (pgCheckAndSetDefaults c = Except.error TErr.badParameter ↔
      (c.Addr = "" ∨ c.CAFile = "" ∨ c.ClientKeyFile = "" ∨ c.ClientCertFile = "")) ∧
    (∀ c', pgCheckAndSetDefaults c = Except.ok c' →
      c'.logSet = true ∧ c'.clockSet = true ∧
      (c.Database = "" → c'.Database = DefaultDatabase) ∧
      (c.PurgePeriod = 0 → c'.PurgePeriod = DefaultPurgePeriod) ∧
      (c.RetryDelayPeriod = 0 → c'.RetryDelayPeriod = DefaultRetryDelayPeriod) ∧
      (c.ConnMaxIdleTime = 0 → c'.ConnMaxIdleTime = DefaultConnMaxIdleTime) ∧
      (c.ConnMaxLifetime = 0 → c'.ConnMaxLifetime = DefaultConnMaxLifetime) ∧
      (c.MaxIdleConns = 0 → c'.MaxIdleConns = DefaultMaxIdleConns) ∧
      (c.MaxOpenConns = 0 → c'.MaxOpenConns = DefaultMaxOpenConns)) := by
  constructor
  · unfold pgCheckAndSetDefaults Config.CheckAndSetDefaults
    simp only [if_neg (by decide : ¬((true : Bool) = false))]
    by_cases h1 : c.Addr = ""
    · simp [h1]
    rw [if_neg h1]
    by_cases h2 : c.CAFile = ""
    · simp [h1, h2]
    rw [if_neg h2]
    by_cases h3 : c.ClientKeyFile = ""
    · simp [h1, h2, h3]
    rw [if_neg h3]
    by_cases h4 : c.ClientCertFile = ""
    · simp [h1, h2, h3, h4]
    rw [if_neg h4]
    simp [h1, h2, h3, h4]
  · intro c' hc'
    unfold pgCheckAndSetDefaults Config.CheckAndSetDefaults at hc'
    simp only [if_neg (by decide : ¬((true : Bool) = false))] at hc'
    by_cases h1 : c.Addr = ""
    · rw [if_pos h1] at hc'; exact Except.noConfusion hc'
    rw [if_neg h1] at hc'
    by_cases h2 : c.CAFile = ""
    · rw [if_pos h2] at hc'; exact Except.noConfusion hc'
    rw [if_neg h2] at hc'
    by_cases h3 : c.ClientKeyFile = ""
    · rw [if_pos h3] at hc'; exact Except.noConfusion hc'
    rw [if_neg h3] at hc'
    by_cases h4 : c.ClientCertFile = ""
    · rw [if_pos h4] at hc'; exact Except.noConfusion hc'
    rw [if_neg h4] at hc'
    injection hc' with h
    subst h
    refine ⟨rfl, rfl, ?_, ?_, ?_, ?_, ?_, ?_, ?_⟩ <;> (intro hz; simp [hz])

/-- Witness for C9: a concrete configuration with only the required
fields set validates successfully and receives every documented
default. -/
theorem config_check_and_set_defaults_witness :
    ∃ c' : Config,
      pgCheckAndSetDefaults
        { Addr := "db:5432", CAFile := "ca.pem", ClientKeyFile := "key.pem",
          ClientCertFile := "cert.pem" } = Except.ok c' ∧
      c'.Database = DefaultDatabase ∧ c'.PurgePeriod = DefaultPurgePeriod ∧
      c'.RetryDelayPeriod = DefaultRetryDelayPeriod ∧ c'.ConnMaxIdleTime = DefaultConnMaxIdleTime ∧
      c'.ConnMaxLifetime = DefaultConnMaxLifetime ∧ c'.MaxIdleConns = DefaultMaxIdleConns ∧
      c'.MaxOpenConns = DefaultMaxOpenConns := by
  have h := (config_check_and_set_defaults
    { Addr := "db:5432", CAFile := "ca.pem", ClientKeyFile := "key.pem",
      ClientCertFile := "cert.pem" }).2 _ rfl
  exact ⟨_, rfl, h.2.2.1 rfl, h.2.2.2.1 rfl, h.2.2.2.2.1 rfl, h.2.2.2.2.2.1 rfl,
    h.2.2.2.2.2.2.1 rfl, h.2.2.2.2.2.2.2.1 rfl, h.2.2.2.2.2.2.2.2 rfl⟩

/-- The first lease found for a key after the replace-in-place map is the
freshly written lease, provided some lease with that key is present. -/
theorem find?_replace_map (item : Item) :
    ∀ ls : List Lease,
      List.find? (fun l => decide (l.key = item.key))
          (ls.map (fun l => if l.key = item.key then ⟨item.key, item.id, item.expires⟩ else l)) =
        if ls.any (fun l => decide (l.key = item.key)) then
          some ⟨item.key, item.id, item.expires⟩
        else none := by
  intro ls
  induction ls with
  | nil => rfl
  | cons l ls ih =>
    by_cases h : l.key = item.key
    · simp [List.any_cons, h]
    · simp [List.any_cons, h, ih]

/-- Appending a fresh lease to a list containing no lease for the key
makes it the lease found for that key. -/
theorem find?_append_fresh (item : Item) :
    ∀ ls : List Lease, ls.any (fun l => decide (l.key = item.key)) = false →
      List.find? (fun l => decide (l.key = item.key))
          (ls ++ [⟨item.key, item.id, item.expires⟩]) =
        some ⟨item.key, item.id, item.expires⟩ := by
  intro ls
  induction ls with
  | nil => intro _; simp
  | cons l ls ih =>
    intro h
    simp only [List.any_cons, Bool.or_eq_false_iff] at h
    rw [List.cons_append, List.find?_cons_of_neg _ (by simp [h.1])]
    exact ih h.2

/-- C7: `UpdateLease(item)` fails with a NotFound error exactly when no
Lease exists for item.Key; `UpsertLease(item)` leaves the Lease for
item.Key pointing at item.ID/item.Expires whether or not one existed
before; and for every key with an existing Lease the two operations
produce the same database state. -/
theorem updateLease_notFound_upsertLease (item : Item) (db : DBState) :
    (UpdateLease item db = Except.error TErr.notFound ↔ ∀ l ∈ db.leases, l.key ≠ item.key) ∧
    ((∃ l ∈ db.leases, l.key = item.key) →
      UpdateLease item db = Except.ok (UpsertLease item db)) ∧
    List.find? (fun l => decide (l.key = item.key)) (UpsertLease item db).leases =
      some ⟨item.key, item.id, item.expires⟩ := by
  by_cases h : db.leases.any (fun l => decide (l.key = item.key))
  · refine ⟨?_, ?_, ?_⟩
    · simp only [UpdateLease, if_pos h]
      constructor
      · intro hfalse; exact Except.noConfusion hfalse
      · intro hnone
        simp only [List.any_eq_true, decide_eq_true_eq] at h
        obtain ⟨l, hl, hk⟩ := h
        exact absurd hk (hnone l hl)
    · intro _
      simp only [UpdateLease, UpsertLease, if_pos h]
    · simp only [UpsertLease, if_pos h]
      rw [find?_replace_map]
      simp [h]
  · refine ⟨?_, ?_, ?_⟩
    · simp only [UpdateLease, if_neg h]
      simp only [List.any_eq_true, decide_eq_true_eq] at h
      push_neg at h
      simp only [iff_true_intro rfl, true_iff]
      exact h
    · intro hex
      obtain ⟨l, hl, hk⟩ := hex
      exact absurd (List.any_eq_true.2 ⟨l, hl, by simp [hk]⟩) h
    · simp only [UpsertLease, if_neg h]
      exact find?_append_fresh item db.leases (by simpa using h)

/-- Witness for C7: with a lease present for key `[1]`, `UpdateLease`
succeeds and coincides with `UpsertLease`; with no lease for key `[2]`,
`UpdateLease` fails with NotFound. -/
theorem updateLease_notFound_upsertLease_witness :
    UpdateLease ⟨[1], [9], 7, none⟩ ⟨[], [⟨[1], 3, none⟩], [], 1⟩ =
      Except.ok (UpsertLease ⟨[1], [9], 7, none⟩ ⟨[], [⟨[1], 3, none⟩], [], 1⟩) ∧
    UpdateLease ⟨[2], [9], 7, none⟩ ⟨[], [⟨[1], 3, none⟩], [], 1⟩ =
      Except.error TErr.notFound := by
  constructor
  · exact (updateLease_notFound_upsertLease ⟨[1], [9], 7, none⟩
      ⟨[], [⟨[1], 3, none⟩], [], 1⟩).2.1 ⟨⟨[1], 3, none⟩, by decide, by decide⟩
  · exact (updateLease_notFound_upsertLease ⟨[2], [9], 7, none⟩
      ⟨[], [⟨[1], 3, none⟩], [], 1⟩).1.2 (by decide)

/-- The watermark returned by `Tx.GetEvents` is the eventid of the last
event fetched, or the input watermark when nothing was fetched. -/
theorem getEvents_last_eq (t : Tx) (fromID : Int) (limit : Nat) :
    (t.getEvents fromID limit).2.1 =
      match (t.getEvents fromID limit).2.2.getLast? with
      | none => fromID
      | some e => e.eventID := by
  simp only [Tx.getEvents]
  split
  · rfl
  · split
    · rfl
    · next e heq => simp [heq]

/-- C2: if any step of a poll cycle fails (beginning the transaction,
reading expired leases, inserting a delete event, fetching events, or
committing), poll returns the input watermark unchanged, emits no
events, and leaves the database unchanged; and unconditionally the
returned watermark is the eventid of the last event emitted, or the
input watermark when none was — so the watermark advances only after a
successful commit. -/
theorem poll_watermark_on_failure (cfg : Config) (db0 : DBState) (now : Int)
    (faults : List (Option TErr)) (fromEventID : Int) :
    ((Backend.poll cfg db0 now faults fromEventID).err ≠ none →
      (Backend.poll cfg db0 now faults fromEventID).last = fromEventID ∧
      (Backend.poll cfg db0 now faults fromEventID).emitted = [] ∧
      (Backend.poll cfg db0 now faults fromEventID).db = db0) ∧
    ((Backend.poll cfg db0 now faults fromEventID).last =
      match (Backend.poll cfg db0 now faults fromEventID).emitted.getLast? with
      | none => fromEventID
      | some e => e.eventID) := by
  simp only [Backend.poll]
  split
  · exact ⟨fun _ => ⟨rfl, rfl, rfl⟩, rfl⟩
  · split
    · exact ⟨fun _ => ⟨rfl, rfl, rfl⟩, rfl⟩
    · refine ⟨fun hne => absurd rfl hne, ?_⟩
      exact getEvents_last_eq _ fromEventID _

/-- Witness for C2: a concrete poll cycle whose transaction fails at
begin returns watermark 1 unchanged, emits nothing and leaves the
database untouched. -/
theorem poll_watermark_on_failure_witness :
    (Backend.poll { BufferSize := 100 } ⟨[], [], [⟨4, OpType.put, ⟨[1], [2], 3, none⟩⟩], 5⟩ 0
        [some TErr.generic] 1).err ≠ none ∧
    (Backend.poll { BufferSize := 100 } ⟨[], [], [⟨4, OpType.put, ⟨[1], [2], 3, none⟩⟩], 5⟩ 0
        [some TErr.generic] 1).last = 1 ∧
    (Backend.poll { BufferSize := 100 } ⟨[], [], [⟨4, OpType.put, ⟨[1], [2], 3, none⟩⟩], 5⟩ 0
        [some TErr.generic] 1).emitted = [] ∧
    (Backend.poll { BufferSize := 100 } ⟨[], [], [⟨4, OpType.put, ⟨[1], [2], 3, none⟩⟩], 5⟩ 0
        [some TErr.generic] 1).db = ⟨[], [], [⟨4, OpType.put, ⟨[1], [2], 3, none⟩⟩], 5⟩ := by
  refine ⟨by decide, ?_⟩
  exact (poll_watermark_on_failure { BufferSize := 100 }
    ⟨[], [], [⟨4, OpType.put, ⟨[1], [2], 3, none⟩⟩], 5⟩ 0 [some TErr.generic] 1).1 (by decide)

/-- A purge cycle either leaves the database unchanged (its transaction
failed somewhere and never committed) or commits exactly the three
deletions, in order. -/
theorem purge_db_cases (db0 : DBState) (now : Int) (faults : List (Option TErr))
    (beforeEventID : Int) :
    (Backend.purge db0 now faults beforeEventID).2 = db0 ∨
    (Backend.purge db0 now faults beforeEventID).2 = purgedDB db0 now beforeEventID := by
  rcases faults with _ | ⟨(_ | e0),
    (_ | ⟨(_ | e1), (_ | ⟨(_ | e2), (_ | ⟨(_ | e3), (_ | ⟨(_ | e4), rest⟩)⟩)⟩)⟩)⟩ <;>
    simp [Backend.purge, Tx.begin, Tx.step, Tx.deleteExpiredLeases, Tx.deleteEvents,
      Tx.deleteItems, Tx.commit, purgedDB]

/-- C1: a purge cycle never removes an event with eventid above the
watermark passed in — events it removes all have eventid at or below the
watermark — and every item it removes has ID at or below the watermark,
is bound by no live (unexpired) lease, and is referenced by no event
with eventid above the watermark (so nothing reachable from a
not-yet-emitted event is removed). -/
theorem purge_safety (db0 : DBState) (now : Int) (faults : List (Option TErr))
    (beforeEventID : Int) :
    (∀ e ∈ db0.events, beforeEventID < e.eventID →
      e ∈ (Backend.purge db0 now faults beforeEventID).2.events) ∧
    (∀ e ∈ db0.events, e ∉ (Backend.purge db0 now faults beforeEventID).2.events →
      e.eventID ≤ beforeEventID) ∧
    (∀ it ∈ db0.items, it ∉ (Backend.purge db0 now faults beforeEventID).2.items →
      it.id ≤ beforeEventID ∧
      (∀ l ∈ db0.leases, l.key = it.key → l.id = it.id → l.expiresLT now = true) ∧
      (∀ e ∈ db0.events, e.item.key = it.key → e.item.id = it.id →
        e.eventID ≤ beforeEventID)) := by
  rcases purge_db_cases db0 now faults beforeEventID with h | h <;> rw [h]
  · exact ⟨fun e he _ => he, fun e he hni => absurd he hni, fun it hi hni => absurd hi hni⟩
  · refine ⟨?_, ?_, ?_⟩
    · intro e he hgt
      simp only [purgedDB]
      exact List.mem_filter.2 ⟨he, by simp [hgt]⟩
    · intro e he hni
      by_contra hgt
      push_neg at hgt
      refine hni ?_
      simp only [purgedDB]
      exact List.mem_filter.2 ⟨he, by simp [hgt]⟩
    · intro it hi hni
      have hkeep : (!(decide (it.id ≤ beforeEventID)
          && !boundByLease (db0.leases.filter (fun l => !l.expiresLT now)) it
          && !referencedByUnemitted (db0.events.filter (fun e => beforeEventID < e.eventID))
              beforeEventID it)) = false := by
        by_contra hk
        rw [Bool.not_eq_false] at hk
        refine hni ?_
        simp only [purgedDB]
        exact List.mem_filter.2 ⟨hi, by rw [Bool.not_eq_true'] at hk; simp [hk]⟩
      rw [Bool.not_eq_false', Bool.and_eq_true, Bool.and_eq_true] at hkeep
      obtain ⟨⟨hid, hbound⟩, href⟩ := hkeep
      rw [Bool.not_eq_true'] at hbound href
      refine ⟨of_decide_eq_true hid, ?_, ?_⟩
      · intro l hl hk hid2
        cases hlt : l.expiresLT now with
        | true => rfl
        | false =>
          exfalso
          have hmem : l ∈ db0.leases.filter (fun l => !l.expiresLT now) :=
            List.mem_filter.2 ⟨hl, by simp [hlt]⟩
          have hany : boundByLease (db0.leases.filter (fun l => !l.expiresLT now)) it = true := by
            unfold boundByLease
            exact List.any_eq_true.2 ⟨l, hmem, by simp [hk, hid2]⟩
          rw [hbound] at hany
          exact Bool.noConfusion hany
      · intro e he hk hid2
        by_contra hgt
        push_neg at hgt
        have hmem : e ∈ db0.events.filter (fun e => beforeEventID < e.eventID) :=
          List.mem_filter.2 ⟨he, by simp [hgt]⟩
        have hany : referencedByUnemitted
            (db0.events.filter (fun e => beforeEventID < e.eventID)) beforeEventID it = true := by
          unfold referencedByUnemitted
          exact List.any_eq_true.2 ⟨e, hmem, by simp [hgt, hk, hid2]⟩
        rw [href] at hany
        exact Bool.noConfusion hany

/-- Witness for C1: a concrete purge at watermark 3 keeps the event with
eventid 5, and the item it removed (ID 1) satisfies the removal
conditions. -/
theorem purge_safety_witness :
    (⟨5, OpType.put, ⟨[2], [7], 10, none⟩⟩ : Event) ∈
      (Backend.purge
        ⟨[⟨[1], [9], 1, none⟩, ⟨[2], [8], 10, none⟩], [],
          [⟨2, OpType.put, ⟨[1], [7], 1, none⟩⟩, ⟨5, OpType.put, ⟨[2], [7], 10, none⟩⟩], 6⟩
        0 [] 3).2.events ∧
    ((1 : Int) ≤ 3) := by
  constructor
  · exact (purge_safety
      ⟨[⟨[1], [9], 1, none⟩, ⟨[2], [8], 10, none⟩], [],
        [⟨2, OpType.put, ⟨[1], [7], 1, none⟩⟩, ⟨5, OpType.put, ⟨[2], [7], 10, none⟩⟩], 6⟩
      0 [] 3).1 _ (by decide) (by decide)
  · exact ((purge_safety
      ⟨[⟨[1], [9], 1, none⟩, ⟨[2], [8], 10, none⟩], [],
        [⟨2, OpType.put, ⟨[1], [7], 1, none⟩⟩, ⟨5, OpType.put, ⟨[2], [7], 10, none⟩⟩], 6⟩
      0 [] 3).2.2 ⟨[1], [9], 1, none⟩ (by decide) (by decide)).1

/-- Every event synthesized for a lease list has eventid at least the
starting counter. -/
theorem buildDeleteEvents_ge : ∀ (ls : List Lease) (n : Int) (e : Event),
    e ∈ buildDeleteEvents n ls → n ≤ e.eventID := by
  intro ls
  induction ls with
  | nil => intro n e he; simp [buildDeleteEvents] at he
  | cons l ls ih =>
    intro n e he
    simp only [buildDeleteEvents, List.mem_cons] at he
    rcases he with he | he
    · subst he; exact le_refl n
    · have := ih (n + 1) e he
      omega

/-- Synthesized delete events are in strictly ascending eventid order. -/
theorem buildDeleteEvents_pairwise : ∀ (ls : List Lease) (n : Int),
    List.Pairwise (fun a b => a.eventID < b.eventID) (buildDeleteEvents n ls) := by
  intro ls
  induction ls with
  | nil => intro n; simp [buildDeleteEvents]
  | cons l ls ih =>
    intro n
    simp only [buildDeleteEvents, List.pairwise_cons]
    refine ⟨fun e he => ?_, ih (n + 1)⟩
    have := buildDeleteEvents_ge ls (n + 1) e he
    omega

/-- Every synthesized event is a Delete event whose item snapshot holds
exactly some expired lease's key and item ID, with value and expires at
their zero values. -/
theorem buildDeleteEvents_mem : ∀ (ls : List Lease) (n : Int) (e : Event),
    e ∈ buildDeleteEvents n ls →
    e.type = OpType.delete ∧ ∃ l ∈ ls, e.item = ⟨l.key, [], l.id, none⟩ := by
  intro ls
  induction ls with
  | nil => intro n e he; simp [buildDeleteEvents] at he
  | cons l ls ih =>
    intro n e he
    simp only [buildDeleteEvents, List.mem_cons] at he
    rcases he with he | he
    · subst he; exact ⟨rfl, l, List.mem_cons_self l ls, rfl⟩
    · obtain ⟨ht, l', hl', hi⟩ := ih (n + 1) e he
      exact ⟨ht, l', List.mem_cons_of_mem l hl', hi⟩

/-- A fault-free run of the poll cycle's insert loop appends exactly one
Delete event per expired lease, tagged with consecutive eventids, and
reports no error, provided the threaded item variable still has its
zero value and expires fields (as Go's `var item backend.Item` does). -/
theorem insertDeleteEvents_noFaults (now : Int) :
    ∀ (ls : List Lease) (db : DBState) (item : Item),
      item.value = [] → item.expires = none →
      (insertDeleteEvents ⟨db, now, none, []⟩ item ls).1 =
        ⟨⟨db.items, db.leases, db.events ++ buildDeleteEvents db.counter ls,
          db.counter + ls.length⟩, now, none, []⟩ ∧
      (insertDeleteEvents ⟨db, now, none, []⟩ item ls).2.2 = none := by
  intro ls
  induction ls with
  | nil =>
    intro db item hv he
    refine ⟨?_, rfl⟩
    simp [insertDeleteEvents, buildDeleteEvents]
  | cons l ls ih =>
    intro db item hv he
    have hitem : ({ item with id := l.id, key := l.key } : Item) = ⟨l.key, [], l.id, none⟩ := by
      cases item
      simp_all
    have hstep : insertDeleteEvents ⟨db, now, none, []⟩ item (l :: ls) =
        insertDeleteEvents
          ⟨⟨db.items, db.leases, db.events ++ [⟨db.counter, OpType.delete, ⟨l.key, [], l.id, none⟩⟩],
            db.counter + 1⟩, now, none, []⟩ ⟨l.key, [], l.id, none⟩ ls := by
      simp [insertDeleteEvents, Tx.insertEvent, Tx.step, hitem]
    rw [hstep]
    obtain ⟨ih1, ih2⟩ := ih
      ⟨db.items, db.leases, db.events ++ [⟨db.counter, OpType.delete, ⟨l.key, [], l.id, none⟩⟩],
        db.counter + 1⟩ ⟨l.key, [], l.id, none⟩ rfl rfl
    refine ⟨?_, ih2⟩
    rw [ih1]
    simp only [buildDeleteEvents, List.append_assoc, List.singleton_append]
    congr 2
    simp only [List.length_cons]
    push_cast
    omega

/-- On a transaction with no stored error and no remaining fault slots,
`Tx.GetEvents` leaves the transaction unchanged and fetches the
filtered, truncated event list. -/
theorem getEvents_noFaults (db : DBState) (now fromID : Int) (limit : Nat) :
    Tx.getEvents ⟨db, now, none, []⟩ fromID limit =
      (⟨db, now, none, []⟩,
       match ((db.events.filter (fun e => decide (fromID < e.eventID))).take limit).getLast? with
       | none => fromID
       | some e => e.eventID,
       (db.events.filter (fun e => decide (fromID < e.eventID))).take limit) := by
  simp only [Tx.getEvents, Tx.step, Option.isSome_none, Bool.false_eq_true, if_false]
  split
  · next heq =>
    rw [List.getLast?_eq_none_iff] at heq
    rw [heq]
  · next e heq => rfl

/-- With no injected faults, the embedded poll cycle computes exactly
the cycle the specification describes. -/
theorem poll_noFaults_eq (cfg : Config) (db0 : DBState) (now fromEventID : Int) :
    Backend.poll cfg db0 now [] fromEventID = pollSpec cfg db0 now fromEventID := by
  obtain ⟨h1, h2⟩ := insertDeleteEvents_noFaults now (expiredLeasesOf db0 now) db0
    ⟨[], [], 0, none⟩ rfl rfl
  simp only [expiredLeasesOf] at h1 h2
  unfold Backend.poll pollSpec
  simp only [Tx.begin, Tx.getExpiredLeases, Tx.step, Option.isSome_none, Bool.false_eq_true,
    if_false, expiredLeasesOf]
  rw [h2]
  simp only [h1]
  rw [getEvents_noFaults]
  simp only [Tx.commit]
  split <;> rfl

/-- `pollSpec` always commits (no error) and always emits the filtered,
truncated fetch. -/
theorem pollSpec_emitted_err (cfg : Config) (db : DBState) (now fromID : Int) :
    (pollSpec cfg db now fromID).err = none ∧
    (pollSpec cfg db now fromID).emitted =
      ((db.events ++ buildDeleteEvents db.counter (expiredLeasesOf db now)).filter
        (fun e => decide (fromID < e.eventID))).take (cfg.BufferSize / 2).toNat ∧
    (pollSpec cfg db now fromID).db.events =
      db.events ++ buildDeleteEvents db.counter (expiredLeasesOf db now) := by
  unfold pollSpec
  dsimp only
  split <;> exact ⟨rfl, rfl, rfl⟩

/-- C3: a fault-free poll cycle runs in one transaction and equals the
specified cycle `pollSpec` — it first appends one Delete event per
currently expired lease (carrying that lease's key and item ID), then
fetches events with eventid strictly above the watermark limited to
`BufferSize/2`, commits, and emits exactly the fetched events; the
emitted batch is in strictly ascending eventid order, is bounded by
`BufferSize/2`, and every emitted event is above the watermark. -/
theorem poll_cycle_functional (cfg : Config) (db0 : DBState) (now fromEventID : Int)
    (hwf : DBWF db0) :
    Backend.poll cfg db0 now [] fromEventID = pollSpec cfg db0 now fromEventID ∧
    (Backend.poll cfg db0 now [] fromEventID).err = none ∧
    List.Pairwise (fun a b => a.eventID < b.eventID)
      (Backend.poll cfg db0 now [] fromEventID).emitted ∧
    (Backend.poll cfg db0 now [] fromEventID).emitted.length ≤ (cfg.BufferSize / 2).toNat ∧
    (∀ e ∈ (Backend.poll cfg db0 now [] fromEventID).emitted, fromEventID < e.eventID) := by
  have heq := poll_noFaults_eq cfg db0 now fromEventID
  obtain ⟨he, hm, _⟩ := pollSpec_emitted_err cfg db0 now fromEventID
  have hall : List.Pairwise (fun a b => a.eventID < b.eventID)
      (db0.events ++ buildDeleteEvents db0.counter (expiredLeasesOf db0 now)) := by
    rw [List.pairwise_append]
    refine ⟨hwf.1, buildDeleteEvents_pairwise _ _, ?_⟩
    intro a ha b hb
    have h1 := hwf.2 a ha
    have h2 := buildDeleteEvents_ge _ _ b hb
    omega
  refine ⟨heq, ?_, ?_, ?_, ?_⟩ <;> rw [heq]
  · exact he
  · rw [hm]
    exact List.Pairwise.sublist (List.take_sublist _ _) (List.Pairwise.filter _ hall)
  · rw [hm]
    exact List.length_take_le _ _
  · intro e hmem
    rw [hm] at hmem
    have := List.mem_filter.1 (List.mem_of_mem_take hmem)
    exact of_decide_eq_true this.2

/-- Witness for C3: a concrete database with one expired lease and one
prior event; the fault-free poll cycle equals the specified cycle. -/
theorem poll_cycle_functional_witness :
    Backend.poll { BufferSize := 100 }
        ⟨[], [⟨[1], 5, some 3⟩], [⟨1, OpType.put, ⟨[1], [7], 5, none⟩⟩], 2⟩ 10 [] 1 =
      pollSpec { BufferSize := 100 }
        ⟨[], [⟨[1], 5, some 3⟩], [⟨1, OpType.put, ⟨[1], [7], 5, none⟩⟩], 2⟩ 10 1 :=
  (poll_cycle_functional { BufferSize := 100 }
    ⟨[], [⟨[1], 5, some 3⟩], [⟨1, OpType.put, ⟨[1], [7], 5, none⟩⟩], 2⟩ 10 1
    ⟨List.pairwise_singleton _ _, by intro e he; simp at he; rw [he]; decide⟩).1

/-- C10: every event the poll cycle's expiry loop adds to the event
table (an event present after the cycle but not before) is a Delete
event whose item snapshot carries only the key and ID of some expired
lease: its value and expires fields are at their zero values. -/
theorem poll_delete_event_snapshot (cfg : Config) (db0 : DBState) (now fromEventID : Int) :
    ∀ e ∈ (Backend.poll cfg db0 now [] fromEventID).db.events, e ∉ db0.events →
      e.type = OpType.delete ∧ e.item.value = [] ∧ e.item.expires = none ∧
      ∃ l ∈ expiredLeasesOf db0 now, e.item.key = l.key ∧ e.item.id = l.id := by
  intro e he hne
  rw [poll_noFaults_eq] at he
  rw [(pollSpec_emitted_err cfg db0 now fromEventID).2.2] at he
  rcases List.mem_append.1 he with h | h
  · exact absurd h hne
  · obtain ⟨ht, l, hl, hi⟩ := buildDeleteEvents_mem _ _ e h
    exact ⟨ht, by rw [hi], by rw [hi], l, hl, by rw [hi], by rw [hi]⟩

/-- Witness for C10: the delete event synthesized for the expired lease
`([1], 5)` carries exactly that key and item ID. -/
theorem poll_delete_event_snapshot_witness :
    ∃ l ∈ expiredLeasesOf ⟨[], [⟨[1], 5, some 3⟩], [⟨1, OpType.put, ⟨[1], [7], 5, none⟩⟩], 2⟩ 10,
      (⟨2, OpType.delete, ⟨[1], [], 5, none⟩⟩ : Event).item.key = l.key ∧
      (⟨2, OpType.delete, ⟨[1], [], 5, none⟩⟩ : Event).item.id = l.id :=
  (poll_delete_event_snapshot { BufferSize := 100 }
    ⟨[], [⟨[1], 5, some 3⟩], [⟨1, OpType.put, ⟨[1], [7], 5, none⟩⟩], 2⟩ 10 1
    ⟨2, OpType.delete, ⟨[1], [], 5, none⟩⟩ (by decide) (by decide)).2.2.2

/-- The severity `Backend.run` chooses for an error. -/
theorem TErr_level_eq (e : TErr) :
    e.level = (if e = TErr.canceled then LogLevel.warn else LogLevel.error) := by
  cases e <;> rfl

/-- C4: the worker loop never terminates on a cycle error: it processes
every tick up to the first close tick and stops exactly there (remaining
ticks are those after the first close); its log grows by exactly one
entry per consecutive-failure streak — the streak's first error — logged
at Warn severity for a cancellation error and Error severity otherwise,
with the once-per-streak flag reset by any successful cycle. -/
theorem run_failure_handling (cfg : Config) (s : RunState) (ticks : List Tick) :
    (Backend.runLoop cfg s ticks).1.log =
      s.log ++ (streakHeads s.loggedError (Backend.runLoop cfg s ticks).2.1).map
        (fun e => (if e = TErr.canceled then LogLevel.warn else LogLevel.error, e)) ∧
    (Backend.runLoop cfg s ticks).2.1.length = (ticks.takeWhile (fun t => !t.isClose)).length ∧
    (Backend.runLoop cfg s ticks).2.2 = afterFirstClose ticks := by
  induction ticks generalizing s with
  | nil => simp [Backend.runLoop, streakHeads, afterFirstClose]
  | cons t rest ih =>
    cases t with
    | closeT => simp [Backend.runLoop, streakHeads, afterFirstClose, Tick.isClose]
    | pollT tnow tfaults =>
      simp only [Backend.runLoop]
      obtain ⟨ih1, ih2, ih3⟩ := ih (RunState.handle
        { s with
          eventID := (Backend.poll cfg s.db tnow tfaults s.eventID).last,
          db := (Backend.poll cfg s.db tnow tfaults s.eventID).db,
          emitted := s.emitted ++ (Backend.poll cfg s.db tnow tfaults s.eventID).emitted }
        (Backend.poll cfg s.db tnow tfaults s.eventID).err)
      refine ⟨?_, ?_, ?_⟩
      · rw [ih1]
        cases herr : (Backend.poll cfg s.db tnow tfaults s.eventID).err with
        | none => simp [RunState.handle, streakHeads, herr]
        | some e =>
          cases hflag : s.loggedError with
          | true => simp [RunState.handle, streakHeads, herr, hflag]
          | false =>
            simp [RunState.handle, streakHeads, herr, hflag, TErr_level_eq]
      · simp [ih2, Tick.isClose, List.takeWhile_cons]
      · simp [ih3, afterFirstClose]
    | purgeT tnow tfaults =>
      simp only [Backend.runLoop]
      obtain ⟨ih1, ih2, ih3⟩ := ih (RunState.handle
        { s with db := (Backend.purge s.db tnow tfaults s.eventID).2 }
        (Backend.purge s.db tnow tfaults s.eventID).1)
      refine ⟨?_, ?_, ?_⟩
      · rw [ih1]
        cases herr : (Backend.purge s.db tnow tfaults s.eventID).1 with
        | none => simp [RunState.handle, streakHeads, herr]
        | some e =>
          cases hflag : s.loggedError with
          | true => simp [RunState.handle, streakHeads, herr, hflag]
          | false =>
            simp [RunState.handle, streakHeads, herr, hflag, TErr_level_eq]
      · simp [ih2, Tick.isClose, List.takeWhile_cons]
      · simp [ih3, afterFirstClose]

/-- Every event fetched by `Tx.GetEvents` has eventid above the input
watermark. -/
theorem getEvents_mem_gt (t : Tx) (fromID : Int) (limit : Nat) :
    ∀ e ∈ (t.getEvents fromID limit).2.2, fromID < e.eventID := by
  intro e he
  dsimp only [Tx.getEvents] at he
  split at he
  · simp at he
  · split at he
    · simp at he
    · have hf := List.mem_filter.1 (List.mem_of_mem_take he)
      exact of_decide_eq_true hf.2

/-- The watermark returned by `Tx.GetEvents` never decreases. -/
theorem getEvents_last_ge (t : Tx) (fromID : Int) (limit : Nat) :
    fromID ≤ (t.getEvents fromID limit).2.1 := by
  dsimp only [Tx.getEvents]
  split
  · exact le_refl fromID
  · split
    · exact le_refl fromID
    · next e heq =>
      show fromID ≤ e.eventID
      have hmem := List.mem_of_getLast?_eq_some heq
      have hf := List.mem_filter.1 (List.mem_of_mem_take hmem)
      have := of_decide_eq_true hf.2
      omega

/-- Every event a poll cycle emits has eventid above the watermark it
started from. -/
theorem poll_emitted_gt (cfg : Config) (db0 : DBState) (now : Int)
    (faults : List (Option TErr)) (fromID : Int) :
    ∀ e ∈ (Backend.poll cfg db0 now faults fromID).emitted, fromID < e.eventID := by
  intro e he
  dsimp only [Backend.poll] at he
  split at he
  · simp at he
  · split at he
    · simp at he
    · exact getEvents_mem_gt _ _ _ e he

/-- A poll cycle never moves the watermark backwards. -/
theorem poll_last_ge (cfg : Config) (db0 : DBState) (now : Int)
    (faults : List (Option TErr)) (fromID : Int) :
    fromID ≤ (Backend.poll cfg db0 now faults fromID).last := by
  dsimp only [Backend.poll]
  split
  · exact le_refl _
  · split
    · exact le_refl _
    · exact getEvents_last_ge _ _ _

/-- Error handling touches only the log and the once-per-streak flag. -/
theorem handle_emitted (s : RunState) (o : Option TErr) :
    (s.handle o).emitted = s.emitted := by
  cases o with
  | none => rfl
  | some e =>
    simp only [RunState.handle]
    split <;> rfl

/-- Error handling leaves the watermark unchanged. -/
theorem handle_eventID (s : RunState) (o : Option TErr) :
    (s.handle o).eventID = s.eventID := by
  cases o with
  | none => rfl
  | some e =>
    simp only [RunState.handle]
    split <;> rfl

/-- Worker-loop invariant: if every event emitted so far has eventid
above `w0` and the watermark is at least `w0`, then every event the
loop ever emits has eventid above `w0`. -/
theorem runLoop_emitted_gt (cfg : Config) (w0 : Int) :
    ∀ (ticks : List Tick) (s : RunState),
      (∀ e ∈ s.emitted, w0 < e.eventID) → w0 ≤ s.eventID →
      ∀ e ∈ (Backend.runLoop cfg s ticks).1.emitted, w0 < e.eventID := by
  intro ticks
  induction ticks with
  | nil =>
    intro s hs _ e he
    simp only [Backend.runLoop] at he
    exact hs e he
  | cons t rest ih =>
    intro s hs hw e he
    cases t with
    | closeT =>
      simp only [Backend.runLoop] at he
      exact hs e he
    | pollT tnow tfaults =>
      simp only [Backend.runLoop] at he
      refine ih _ ?_ ?_ e he
      · intro e' he'
        rw [handle_emitted] at he'
        rcases List.mem_append.1 he' with h | h
        · exact hs e' h
        · have h1 := poll_emitted_gt cfg s.db tnow tfaults s.eventID e' h
          omega
      · rw [handle_eventID]
        have h2 := poll_last_ge cfg s.db tnow tfaults s.eventID
        dsimp only
        omega
    | purgeT tnow tfaults =>
      simp only [Backend.runLoop] at he
      refine ih _ ?_ ?_ e he
      · intro e' he'
        rw [handle_emitted] at he'
        exact hs e' he'
      · rw [handle_eventID]
        exact hw

/-- C6: before the worker is launched, `start` reads the last event ID
once through a read-only transaction; if that commit succeeds it seeds
the worker's watermark with exactly that value, signals the buffer
ready, launches the worker, and every event any subsequent worker run
emits has eventid strictly above the value present at startup; if the
read fails, start returns an error and neither signals the buffer nor
launches the worker. -/
theorem start_seeds_watermark (cfg : Config) (db : DBState) (now : Int)
    (faults : List (Option TErr)) :
    ((Backend.start db now faults).err = none →
      (Backend.start db now faults).watermark = lastEventIDOf db ∧
      (Backend.start db now faults).setInit = true ∧
      (Backend.start db now faults).started = true ∧
      ∀ (ticks : List Tick) (e : Event),
        e ∈ (Backend.runLoop cfg
          ⟨(Backend.start db now faults).watermark, db, false, [], []⟩ ticks).1.emitted →
        lastEventIDOf db < e.eventID) ∧
    ((Backend.start db now faults).err ≠ none →
      (Backend.start db now faults).started = false ∧
      (Backend.start db now faults).setInit = false) := by
  have hrun : ∀ (ticks : List Tick) (e : Event),
      e ∈ (Backend.runLoop cfg ⟨lastEventIDOf db, db, false, [], []⟩ ticks).1.emitted →
      lastEventIDOf db < e.eventID := by
    intro ticks e he
    exact runLoop_emitted_gt cfg (lastEventIDOf db) ticks _ (by intro x hx; simp at hx)
      (le_refl _) e he
  rcases show Backend.start db now faults = ⟨lastEventIDOf db, true, true, none⟩ ∨
      Backend.start db now faults = ⟨0, false, false, some TErr.connectionProblem⟩ by
    rcases faults with _ | ⟨(_ | e0), (_ | ⟨(_ | e1), (_ | ⟨(_ | e2), rest⟩)⟩)⟩ <;>
      first
        | exact Or.inl rfl
        | exact Or.inr rfl
    with h | h <;> rw [h]
  · exact ⟨fun _ => ⟨rfl, rfl, rfl, hrun⟩, fun hne => absurd rfl hne⟩
  · exact ⟨fun hc => absurd hc (by simp), fun _ => ⟨rfl, rfl⟩⟩

/-- Witness for C6: a concrete successful start seeds the watermark
with the last event ID (1), and a worker poll tick then emits only the
fresh event 2, above the startup value. -/
theorem start_seeds_watermark_witness :
    (Backend.start ⟨[], [⟨[1], 5, some 3⟩], [⟨1, OpType.put, ⟨[1], [7], 5, none⟩⟩], 2⟩
      10 []).err = none ∧
    (Backend.start ⟨[], [⟨[1], 5, some 3⟩], [⟨1, OpType.put, ⟨[1], [7], 5, none⟩⟩], 2⟩
      10 []).watermark =
      lastEventIDOf ⟨[], [⟨[1], 5, some 3⟩], [⟨1, OpType.put, ⟨[1], [7], 5, none⟩⟩], 2⟩ ∧
    lastEventIDOf ⟨[], [⟨[1], 5, some 3⟩], [⟨1, OpType.put, ⟨[1], [7], 5, none⟩⟩], 2⟩ <
      (⟨2, OpType.delete, ⟨[1], [], 5, none⟩⟩ : Event).eventID := by
  have h := (start_seeds_watermark { BufferSize := 100 }
    ⟨[], [⟨[1], 5, some 3⟩], [⟨1, OpType.put, ⟨[1], [7], 5, none⟩⟩], 2⟩ 10 []).1 (by decide)
  exact ⟨by decide, h.1,
    h.2.2.2 [Tick.pollT 10 []] ⟨2, OpType.delete, ⟨[1], [], 5, none⟩⟩ (by decide)⟩

end Sqlbk
